import Mathlib

/-!
Shallow embedding of the like indexing plugin
(packages/bsky/src/data-plane/server/indexing/plugins/like.ts and its
bulk-copy variant) together with proofs about its record-level
operations: single and bulk insertion with conflict-do-nothing,
notification computation, and aggregate recounts.

Modelling conventions:
- AT URIs are kept structural (host, collection, rkey); the textual
  serialization used by the database is injective on these components,
  so structural equality coincides with string equality of the stored
  text columns.
- Timestamps are modelled as Nat time values (the result of
  Date.getTime on the stored ISO strings); normalizeDatetimeAlways
  canonicalizes the textual representation while preserving the
  instant, so on time values it is the identity.
- The like table and the post_agg table are lists of rows; the uri
  column of the like table is its conflict key (primary key).
-/

set_option autoImplicit false

namespace LikePlugin

/-- Structural model of AtUri from the atproto syntax package: a
hierarchical record URI with an authority (host), a collection and a
record key. -/
structure AtUri where
  host : String
  collection : String
  rkey : String
deriving DecidableEq, Repr

/-- A strong reference: the subject field of a like record, pairing a
record URI with a content hash (cid). -/
structure StrongRef where
  uri : AtUri
  cid : String
deriving DecidableEq, Repr

/-- The validated lexicon record app.bsky.feed.like: a subject strong
reference and a creation time. -/
structure LikeRecord where
  subject : StrongRef
  createdAt : Nat
deriving DecidableEq, Repr

/-- normalizeDatetimeAlways from the atproto syntax package,
modelled at the time-value level: it canonicalizes the textual datetime
but denotes the same instant, hence the identity on time values. -/
def normalizeDatetimeAlways (t : Nat) : Nat := t

/-- A row of the like table (Selectable of the like table schema). -/
structure IndexedLike where
  uri : AtUri
  cid : String
  creator : String
  subject : AtUri
  subjectCid : String
  createdAt : Nat
  indexedAt : Nat
  sortAt : Nat
deriving DecidableEq, Repr

/-- A row of the post_agg table (only the likeCount column matters to
this plugin). -/
structure PostAgg where
  uri : AtUri
  likeCount : Nat
deriving DecidableEq, Repr

/-- The database state visible to this plugin. -/
structure DB where
  likeTable : List IndexedLike
  postAgg : List PostAgg
deriving DecidableEq, Repr

/-- Modelled from the spec: the like table schema (not under src/)
computes the sortAt column as the earlier of the remotely asserted
createdAt and the locally observed indexedAt. -/
def sortAtGenerated (createdAt indexedAt : Nat) : Nat :=
  min createdAt indexedAt

/-- Conflict test of the like table: does a row with this uri exist. -/
def hasUri (tbl : List IndexedLike) (u : AtUri) : Bool :=
  tbl.any (fun r => r.uri == u)

/-- The row stored by insertFn: values as written in the source insert,
with the sortAt column filled in by the schema. -/
def mkInsertRow (uri : AtUri) (cid : String) (obj : LikeRecord)
    (timestamp : Nat) : IndexedLike :=
  { uri := uri
    cid := cid
    creator := uri.host
    subject := obj.subject.uri
    subjectCid := obj.subject.cid
    createdAt := normalizeDatetimeAlways obj.createdAt
    indexedAt := timestamp
    sortAt := sortAtGenerated (normalizeDatetimeAlways obj.createdAt) timestamp }

/-- insertFn: single-row insert with on-conflict-do-nothing, returning
the inserted row or none on conflict, together with the new database
state. -/
def insertFn (db : DB) (uri : AtUri) (cid : String) (obj : LikeRecord)
    (timestamp : Nat) : Option IndexedLike × DB :=
  if hasUri db.likeTable uri then (none, db)
  else
    let row := mkInsertRow uri cid obj timestamp
    (some row, { db with likeTable := db.likeTable ++ [row] })

/-- An element of the records argument of insertBulkFn. -/
structure InsertRecord where
  uri : AtUri
  cid : String
  obj : LikeRecord
  timestamp : Nat
deriving DecidableEq, Repr

/-- The seven per-column arrays built by the loop in the unnest-based
insertBulkFn (uri, cid, creator, subject, subjectCid, createdAt,
indexedAt). -/
structure InsertCols where
  uris : List AtUri
  cids : List String
  creators : List String
  subjects : List AtUri
  subjectCids : List String
  createdAts : List Nat
  indexedAts : List Nat
deriving DecidableEq, Repr

/-- The transposition loop of the unnest-based insertBulkFn: one push
per column per record, in record order. -/
def toInsert : List InsertRecord → InsertCols
  | [] => ⟨[], [], [], [], [], [], []⟩
  | r :: rest =>
    let c := toInsert rest
    ⟨r.uri :: c.uris,
     r.cid :: c.cids,
     r.uri.host :: c.creators,
     r.obj.subject.uri :: c.subjects,
     r.obj.subject.cid :: c.subjectCids,
     normalizeDatetimeAlways r.obj.createdAt :: c.createdAts,
     r.timestamp :: c.indexedAts⟩

/-- The unnest of the seven column arrays back into positional rows, as
performed by the SELECT over unnest in the insert expression; the
sortAt column of each produced row is filled in by the schema. All
seven arrays have equal length by construction of toInsert. -/
def zipCols : List AtUri → List String → List String → List AtUri →
    List String → List Nat → List Nat → List IndexedLike
  | u :: us, c :: cs, cr :: crs, s :: ss, sc :: scs, ca :: cas, ia :: ias =>
    { uri := u, cid := c, creator := cr, subject := s, subjectCid := sc,
      createdAt := ca, indexedAt := ia,
      sortAt := sortAtGenerated ca ia } :: zipCols us cs crs ss scs cas ias
  | _, _, _, _, _, _, _ => []

/-- The row the unnest path produces for one input record. -/
def mkUnnestRow (r : InsertRecord) : IndexedLike :=
  { uri := r.uri
    cid := r.cid
    creator := r.uri.host
    subject := r.obj.subject.uri
    subjectCid := r.obj.subject.cid
    createdAt := normalizeDatetimeAlways r.obj.createdAt
    indexedAt := r.timestamp
    sortAt := sortAtGenerated (normalizeDatetimeAlways r.obj.createdAt) r.timestamp }

/-- Multi-row insert with on-conflict-do-nothing and returning-all:
rows are checked in order against the table as it grows, conflicting
rows are skipped silently, and the list of actually inserted rows is
returned together with the final table. -/
def insertRowsDoNothing (tbl : List IndexedLike) :
    List IndexedLike → List IndexedLike × List IndexedLike
  | [] => ([], tbl)
  | row :: rest =>
    if hasUri tbl row.uri then insertRowsDoNothing tbl rest
    else
      let res := insertRowsDoNothing (tbl ++ [row]) rest
      (row :: res.1, res.2)

/-- The unnest-based insertBulkFn of like.ts: transpose the records
into column arrays, unnest them back into rows, insert with
on-conflict-do-nothing, return the inserted rows. -/
def insertBulkFn (db : DB) (records : List InsertRecord) :
    List IndexedLike × DB :=
  let cols := toInsert records
  let rows := zipCols cols.uris cols.cids cols.creators cols.subjects
    cols.subjectCids cols.createdAts cols.indexedAts
  let res := insertRowsDoNothing db.likeTable rows
  (res.1, { db with likeTable := res.2 })

/-- The row built by the bulk-copy insertBulkFn, with the sortAt value
computed in code exactly as in the source: createdAt when its time
value is strictly below the indexedAt time value, indexedAt
otherwise. -/
def mkCopyRow (r : InsertRecord) : IndexedLike :=
  let createdAt := normalizeDatetimeAlways r.obj.createdAt
  let indexedAt := r.timestamp
  let sortAt := if createdAt < indexedAt then createdAt else indexedAt
  { uri := r.uri
    cid := r.cid
    creator := r.uri.host
    subject := r.obj.subject.uri
    subjectCid := r.obj.subject.cid
    createdAt := createdAt
    indexedAt := indexedAt
    sortAt := sortAt }

/-- Modelled from the spec: copyIntoTable (under util, not under src/)
performs a batched insert of fully materialized rows into the like
table with the same per-row idempotency contract — rows whose uri is
already present are silently excluded from the result and never
duplicated, the others are inserted and returned. -/
def copyIntoTable (tbl : List IndexedLike) :
    List IndexedLike → List IndexedLike × List IndexedLike
  | [] => ([], tbl)
  | row :: rest =>
    if hasUri tbl row.uri then copyIntoTable tbl rest
    else
      let res := copyIntoTable (tbl ++ [row]) rest
      (row :: res.1, res.2)

/-- The bulk-copy insertBulkFn of the variant source file: materialize
every row in code (including sortAt) and hand the batch to
copyIntoTable. -/
def insertBulkFnCopy (db : DB) (records : List InsertRecord) :
    List IndexedLike × DB :=
  let res := copyIntoTable db.likeTable (records.map mkCopyRow)
  (res.1, { db with likeTable := res.2 })

/-- A notification intent value handed to the notification subsystem.
The reasonSubject carries the parsed subject URI re-serialized, which
is the subject column of the row under the structural URI model. -/
structure NotificationIntent where
  did : String
  author : String
  recordUri : AtUri
  recordCid : String
  reason : String
  reasonSubject : AtUri
  sortAt : Nat
deriving DecidableEq, Repr

/-- notifsForInsert: suppress self-notification, otherwise one intent
addressed to the host of the subject URI. -/
def notifsForInsert (obj : IndexedLike) : List NotificationIntent :=
  let subjectUri := obj.subject
  let isSelf := subjectUri.host == obj.creator
  if isSelf then []
  else
    [{ did := subjectUri.host
       author := obj.creator
       recordUri := obj.uri
       recordCid := obj.cid
       reason := "like"
       reasonSubject := subjectUri
       sortAt := obj.sortAt }]

/-- The result shape of notifsForDelete: fresh intents and URIs whose
notifications are to be retracted. -/
structure DeleteNotifs where
  notifs : List NotificationIntent
  toDelete : List AtUri
deriving DecidableEq, Repr

/-- notifsForDelete: never emits intents; retracts the deleted row
unless the delete was a supersession (replacedBy present). -/
def notifsForDelete (deleted : IndexedLike)
    (replacedBy : Option IndexedLike) : DeleteNotifs :=
  let toDelete := if replacedBy.isSome then [] else [deleted.uri]
  { notifs := [], toDelete := toDelete }

/-- The scalar subquery of updateAggregates: count of like rows whose
subject equals the given URI. -/
def likeCountOf (tbl : List IndexedLike) (s : AtUri) : Nat :=
  (tbl.filter (fun r => r.subject == s)).length

/-- Insert into post_agg with on-conflict-on-uri-do-update-set: a
matching row gets its likeCount overwritten, otherwise a fresh row is
appended. -/
def upsertPostAgg (pa : List PostAgg) (u : AtUri) (n : Nat) : List PostAgg :=
  if pa.any (fun r => r.uri == u) then
    pa.map (fun r => if r.uri == u then { r with likeCount := n } else r)
  else pa ++ [{ uri := u, likeCount := n }]

/-- Lookup of the stored likeCount for a subject in post_agg. -/
def lookupAgg (pa : List PostAgg) (u : AtUri) : Option Nat :=
  (pa.find? (fun r => r.uri == u)).map (fun r => r.likeCount)

/-- updateAggregates: upsert the post_agg row of the subject of the
given like with the authoritative recount over the like table. -/
def updateAggregates (db : DB) (like : IndexedLike) : DB :=
  { db with
    postAgg := upsertPostAgg db.postAgg like.subject
      (likeCountOf db.likeTable like.subject) }

/-- The LEFT JOIN of the bulk recount query: every input row (one per
batch element, duplicates preserved by unnest) is joined against the
like rows sharing its subject, or kept once with a null right side
when no like row matches. -/
def joinRows (inputs : List AtUri) (tbl : List IndexedLike) :
    List (AtUri × Option IndexedLike) :=
  inputs.flatMap (fun v =>
    let matched := tbl.filter (fun r => r.subject == v)
    if matched.isEmpty then [(v, none)]
    else matched.map (fun r => (v, some r)))

/-- The aggregate count(like.uri) over one GROUP BY group: joined rows
keyed by this input uri whose right side is non-null. -/
def groupCount (rows : List (AtUri × Option IndexedLike)) (v : AtUri) : Nat :=
  (rows.filter (fun p => p.1 == v && p.2.isSome)).length

/-- updateAggregatesBulk: the raw SQL recount — unnest the subject of
every batch element into input_values (duplicates preserved), LEFT
JOIN the like table on subject, GROUP BY the input uri, and upsert
count(like.uri) per group into post_agg. -/
def updateAggregatesBulk (db : DB) (likes : List IndexedLike) : DB :=
  let inputs := likes.map (fun l => l.subject)
  let rows := joinRows inputs db.likeTable
  let groups := inputs.eraseDups
  { db with
    postAgg := groups.foldl
      (fun pa v => upsertPostAgg pa v (groupCount rows v)) db.postAgg }

/-- A raw like payload before lexicon validation: the subject may be
missing. -/
structure RawLikeRecord where
  subject : Option StrongRef
  createdAt : Nat
deriving DecidableEq, Repr

/-- Modelled from the spec: the lexicon validation performed by the
record processor (not under src/) rejects malformed payloads — a like
with a missing subject, or a self-referential record whose subject is
the record itself — before any storage call, as a validation error. -/
def validateLikeRecord (uri : AtUri) (raw : RawLikeRecord) :
    Except String LikeRecord :=
  match raw.subject with
  | none => Except.error "validation error: missing subject"
  | some s =>
    if s.uri = uri then
      Except.error "validation error: self-referential subject"
    else Except.ok { subject := s, createdAt := raw.createdAt }

/-- The indexing operation for one raw payload: validate, then insert;
validation failure surfaces the error and performs no storage call. -/
def indexLikeRecord (db : DB) (uri : AtUri) (cid : String)
    (raw : RawLikeRecord) (timestamp : Nat) :
    Except String (Option IndexedLike) × DB :=
  match validateLikeRecord uri raw with
  | Except.error e => (Except.error e, db)
  | Except.ok obj =>
    let res := insertFn db uri cid obj timestamp
    (Except.ok res.1, res.2)

/-- Number of rows of a like table carrying the given uri. -/
def countUriTbl (tbl : List IndexedLike) (u : AtUri) : Nat :=
  (tbl.filter (fun r => r.uri == u)).length

/-! Concrete fixtures used by witnesses and counterexamples. -/

/-- A liked post URI owned by bob.test. -/
def exSubject : AtUri := ⟨"bob.test", "app.bsky.feed.post", "p1"⟩

/-- A second post URI owned by dan.test. -/
def exSubject2 : AtUri := ⟨"dan.test", "app.bsky.feed.post", "p2"⟩

/-- URI of a like record by alice.test. -/
def exLikeUri1 : AtUri := ⟨"alice.test", "app.bsky.feed.like", "l1"⟩

/-- URI of a like record by carol.test. -/
def exLikeUri2 : AtUri := ⟨"carol.test", "app.bsky.feed.like", "l2"⟩

/-- An indexed like by alice.test on the bob.test post. -/
def exRow1 : IndexedLike := ⟨exLikeUri1, "c1", "alice.test", exSubject, "sc1", 5, 10, 5⟩

/-- An indexed like by carol.test on the same bob.test post. -/
def exRow2 : IndexedLike := ⟨exLikeUri2, "c2", "carol.test", exSubject, "sc2", 6, 11, 6⟩

/-- A database holding the two likes above and no aggregates. -/
def exDB : DB := ⟨[exRow1, exRow2], []⟩

/-- A validated like record for the bob.test post. -/
def exRecord : LikeRecord := ⟨⟨exSubject, "sc1"⟩, 5⟩

/-- A bulk-insert input carrying exLikeUri1. -/
def exInsert1 : InsertRecord := ⟨exLikeUri1, "c1", exRecord, 10⟩

/-- A second bulk-insert input with the same uri as exInsert1 but a
different cid and payload. -/
def exInsert2 : InsertRecord := ⟨exLikeUri1, "c2", ⟨⟨exSubject, "sc2"⟩, 12⟩, 11⟩

/-- A bulk-insert input with a fresh uri. -/
def exInsert3 : InsertRecord := ⟨exLikeUri2, "c3", ⟨⟨exSubject2, "sc3"⟩, 9⟩, 7⟩

/-! Helper lemmas. -/

theorem hasUri_eq_true_iff (tbl : List IndexedLike) (u : AtUri) :
    hasUri tbl u = true ↔ ∃ r ∈ tbl, r.uri = u := by
  simp [hasUri, List.any_eq_true]

theorem lookupAgg_upsertPostAgg_self (pa : List PostAgg) (u : AtUri) (n : Nat) :
    lookupAgg (upsertPostAgg pa u n) u = some n := by
  by_cases h : pa.any (fun r => r.uri == u) = true
  · have hs : (pa.find? (fun r => r.uri == u)).isSome := by
      rw [List.find?_isSome]
      simpa [List.any_eq_true] using h
    obtain ⟨r0, hr0⟩ := Option.isSome_iff_exists.mp hs
    have hr0u : r0.uri = u := by simpa using List.find?_some hr0
    have hp : ((fun (r : PostAgg) => r.uri == u) ∘
        (fun r => if r.uri == u then { r with likeCount := n } else r)) =
        (fun (r : PostAgg) => r.uri == u) := by
      funext r
      by_cases hr : r.uri = u <;> simp [hr]
    rw [lookupAgg, upsertPostAgg, if_pos h, List.find?_map, hp, hr0]
    simp [hr0u]
  · have hnone : pa.find? (fun r => r.uri == u) = none := by
      rw [List.find?_eq_none]
      intro x hx hxu
      exact h (List.any_eq_true.mpr ⟨x, hx, hxu⟩)
    rw [lookupAgg, upsertPostAgg, if_neg h, List.find?_append, hnone]
    simp

theorem lookupAgg_upsertPostAgg_other (pa : List PostAgg) (u v : AtUri) (n : Nat)
    (huv : v ≠ u) : lookupAgg (upsertPostAgg pa u n) v = lookupAgg pa v := by
  by_cases h : pa.any (fun r => r.uri == u) = true
  · have hp : ((fun (r : PostAgg) => r.uri == v) ∘
        (fun r => if r.uri == u then { r with likeCount := n } else r)) =
        (fun (r : PostAgg) => r.uri == v) := by
      funext r
      by_cases hr : r.uri = u <;> simp [hr]
    rw [lookupAgg, upsertPostAgg, if_pos h, List.find?_map, hp, lookupAgg]
    cases hf : pa.find? (fun r => r.uri == v) with
    | none => simp
    | some r0 =>
      have hr0v : r0.uri = v := by simpa using List.find?_some hf
      have hr0u : ¬ (r0.uri = u) := by rw [hr0v]; exact huv
      simp [hr0u]
  · rw [lookupAgg, upsertPostAgg, if_neg h, List.find?_append, lookupAgg]
    cases hf : pa.find? (fun r => r.uri == v) with
    | none => simp [Ne.symm huv]
    | some r0 => simp

theorem sortAtGenerated_eq_ifLt (c t : Nat) :
    sortAtGenerated c t = if c < t then c else t := by
  unfold sortAtGenerated
  split <;> omega

theorem mkUnnestRow_eq_mkCopyRow (r : InsertRecord) :
    mkUnnestRow r = mkCopyRow r := by
  simp [mkUnnestRow, mkCopyRow, sortAtGenerated_eq_ifLt]

theorem zipCols_toInsert (records : List InsertRecord) :
    zipCols (toInsert records).uris (toInsert records).cids
      (toInsert records).creators (toInsert records).subjects
      (toInsert records).subjectCids (toInsert records).createdAts
      (toInsert records).indexedAts = records.map mkUnnestRow := by
  induction records with
  | nil => rfl
  | cons r rest ih => simp [toInsert, zipCols, mkUnnestRow, ih]

theorem copyIntoTable_eq_insertRowsDoNothing (rows : List IndexedLike)
    (tbl : List IndexedLike) :
    copyIntoTable tbl rows = insertRowsDoNothing tbl rows := by
  induction rows generalizing tbl with
  | nil => rfl
  | cons row rest ih =>
    simp only [copyIntoTable, insertRowsDoNothing]
    split
    · exact ih tbl
    · rw [ih (tbl ++ [row])]

theorem hasUri_append (a b : List IndexedLike) (u : AtUri) :
    hasUri (a ++ b) u = (hasUri a u || hasUri b u) := by
  simp [hasUri]

theorem countUriTbl_append (a b : List IndexedLike) (u : AtUri) :
    countUriTbl (a ++ b) u = countUriTbl a u + countUriTbl b u := by
  simp [countUriTbl, List.filter_append]

theorem countUriTbl_cons (r : IndexedLike) (l : List IndexedLike) (u : AtUri) :
    countUriTbl (r :: l) u =
      (if r.uri = u then 1 else 0) + countUriTbl l u := by
  by_cases h : r.uri = u
  · simp [countUriTbl, List.filter_cons, h]
    omega
  · simp [countUriTbl, List.filter_cons, h]

theorem countUriTbl_eq_zero_iff (tbl : List IndexedLike) (u : AtUri) :
    countUriTbl tbl u = 0 ↔ hasUri tbl u = false := by
  constructor
  · intro h
    cases hc : hasUri tbl u
    · rfl
    · obtain ⟨r, hr, hru⟩ := (hasUri_eq_true_iff tbl u).mp hc
      have : r ∈ tbl.filter (fun x => x.uri == u) :=
        List.mem_filter.mpr ⟨hr, by simp [hru]⟩
      rw [countUriTbl] at h
      rw [List.length_eq_zero] at h
      simp [h] at this
  · intro h
    rw [countUriTbl, List.length_eq_zero, List.filter_eq_nil_iff]
    intro x hx hxu
    exact absurd ((hasUri_eq_true_iff tbl u).mpr ⟨x, hx, by simpa using hxu⟩)
      (by simp [h])

theorem insertRowsDoNothing_table (rows tbl : List IndexedLike) :
    (insertRowsDoNothing tbl rows).2 = tbl ++ (insertRowsDoNothing tbl rows).1 := by
  induction rows generalizing tbl with
  | nil => simp [insertRowsDoNothing]
  | cons row rest ih =>
    simp only [insertRowsDoNothing]
    split
    · exact ih tbl
    · simp [ih (tbl ++ [row])]

theorem insertRowsDoNothing_ret_count (rows tbl : List IndexedLike) (u : AtUri) :
    countUriTbl (insertRowsDoNothing tbl rows).1 u =
      if hasUri tbl u then 0
      else if rows.any (fun r => r.uri == u) then 1 else 0 := by
  induction rows generalizing tbl with
  | nil => simp [insertRowsDoNothing, countUriTbl]
  | cons row rest ih =>
    simp only [insertRowsDoNothing]
    by_cases hrow : hasUri tbl row.uri
    · rw [if_pos hrow, ih tbl]
      by_cases hu : hasUri tbl u
      · rw [if_pos hu, if_pos hu]
      · have hne : ¬ (row.uri = u) := by
          intro he
          exact hu (he ▸ hrow)
        rw [if_neg hu, if_neg hu]
        simp [hne]
    · rw [if_neg hrow]
      simp only
      rw [countUriTbl_cons, ih (tbl ++ [row]), hasUri_append]
      have hsingle : hasUri [row] u = (row.uri == u) := by simp [hasUri]
      rw [hsingle, List.any_cons]
      by_cases he : row.uri = u
      · have htu : hasUri tbl u = false := by
          cases hc : hasUri tbl u
          · rfl
          · exact absurd (he ▸ hc) hrow
        simp [he, htu]
      · have hbe : (row.uri == u) = false := by simpa using he
        rw [hbe]
        simp [he]
theorem insertRowsDoNothing_ret_mem (rows tbl : List IndexedLike)
    (row : IndexedLike) (h : row ∈ (insertRowsDoNothing tbl rows).1) :
    row ∈ rows := by
  induction rows generalizing tbl with
  | nil => simp [insertRowsDoNothing] at h
  | cons r rest ih =>
    simp only [insertRowsDoNothing] at h
    by_cases hr : hasUri tbl r.uri
    · rw [if_pos hr] at h
      exact List.mem_cons_of_mem r (ih tbl h)
    · rw [if_neg hr] at h
      simp only [List.mem_cons] at h
      rcases h with h | h
      · exact h ▸ List.mem_cons_self r rest
      · exact List.mem_cons_of_mem r (ih (tbl ++ [r]) h)

theorem any_uri_map_mkUnnestRow (records : List InsertRecord) (u : AtUri) :
    ((records.map mkUnnestRow).any (fun r => r.uri == u)) =
      records.any (fun r => r.uri == u) := by
  induction records with
  | nil => rfl
  | cons r rest ih => simp [List.any_cons, ih, mkUnnestRow]

/-! Claim theorems. -/

/-- Claim C1 evaluated at a failing input: a batch of two indexed
likes sharing one subject. The like table stores two like rows for
that subject, but the bulk recount writes likeCount 4 — every
duplicate of the subject in the unnest input multiplies the joined
like rows and the GROUP BY then counts them all — while the same
query over a batch naming the subject once writes the correct
count 2. -/
theorem C1_updateAggregatesBulk_overcounts_duplicates :
    likeCountOf exDB.likeTable exSubject = 2 ∧
    lookupAgg (updateAggregatesBulk exDB [exRow1, exRow2]).postAgg exSubject =
      some 4 ∧
    lookupAgg (updateAggregatesBulk exDB [exRow1]).postAgg exSubject =
      some 2 :=
  ⟨rfl, rfl, rfl⟩

/-- Claim C4: the unnest-array insertBulkFn and the bulk-copy
insertBulkFn are semantically equivalent — on every batch and every
starting state they return the same inserted rows and produce the
same final like table, stored sortAt values included. -/
theorem C4_insertBulk_variants_equivalent (db : DB) (records : List InsertRecord) :
    insertBulkFn db records = insertBulkFnCopy db records := by
  have hmap : records.map mkUnnestRow = records.map mkCopyRow := by
    simp [mkUnnestRow_eq_mkCopyRow]
  simp only [insertBulkFn, insertBulkFnCopy]
  rw [zipCols_toInsert, copyIntoTable_eq_insertRowsDoNothing, hmap]

/-- Claim C5 (amended): a record whose uri is already present in the
starting table is silently excluded from the returned rows and
produces no duplicate row; a uri absent from the starting table and
carried by at least one batch record is inserted exactly once and
appears exactly once in the result — a later batch record repeating
the uri of an earlier one is also silently excluded — and every
returned row is the row built from some batch record. -/
theorem C5_insertBulk_idempotent_per_uri (db : DB) (records : List InsertRecord)
    (u : AtUri) :
    (0 < countUriTbl db.likeTable u →
      countUriTbl (insertBulkFn db records).1 u = 0 ∧
      countUriTbl (insertBulkFn db records).2.likeTable u =
        countUriTbl db.likeTable u) ∧
    (countUriTbl db.likeTable u = 0 →
      countUriTbl (insertBulkFn db records).1 u =
        (if records.any (fun r => r.uri == u) then 1 else 0) ∧
      countUriTbl (insertBulkFn db records).2.likeTable u =
        countUriTbl (insertBulkFn db records).1 u) ∧
    (∀ row ∈ (insertBulkFn db records).1,
      ∃ rec ∈ records, row = mkUnnestRow rec) := by
  have h1 : (insertBulkFn db records).1 =
      (insertRowsDoNothing db.likeTable (records.map mkUnnestRow)).1 := by
    simp only [insertBulkFn]
    rw [zipCols_toInsert]
  have h2 : (insertBulkFn db records).2.likeTable =
      (insertRowsDoNothing db.likeTable (records.map mkUnnestRow)).2 := by
    simp only [insertBulkFn]
    rw [zipCols_toInsert]
  have hany := any_uri_map_mkUnnestRow records u
  refine ⟨?_, ?_, ?_⟩
  · intro hpos
    have hu : hasUri db.likeTable u = true := by
      cases hc : hasUri db.likeTable u
      · exact absurd ((countUriTbl_eq_zero_iff db.likeTable u).mpr hc) (by omega)
      · rfl
    constructor
    · rw [h1, insertRowsDoNothing_ret_count, if_pos hu]
    · rw [h2, insertRowsDoNothing_table, countUriTbl_append,
        insertRowsDoNothing_ret_count, if_pos hu, Nat.add_zero]
  · intro hzero
    have hu : hasUri db.likeTable u = false :=
      (countUriTbl_eq_zero_iff db.likeTable u).mp hzero
    constructor
    · rw [h1, insertRowsDoNothing_ret_count, if_neg (by simp [hu]), hany]
    · rw [h2, h1, insertRowsDoNothing_table, countUriTbl_append, hzero,
        Nat.zero_add]
  · intro row hrow
    rw [h1] at hrow
    obtain ⟨rec, hrec, heq⟩ :=
      List.mem_map.mp (insertRowsDoNothing_ret_mem _ _ _ hrow)
    exact ⟨rec, hrec, heq.symm⟩

/-- Witness for the amended C5: a batch record whose uri is already
indexed yields no returned row, and a batch record with a fresh uri
yields exactly one. -/
theorem C5_insertBulk_idempotent_per_uri_witness :
    countUriTbl (insertBulkFn exDB [exInsert1]).1 exLikeUri1 = 0 ∧
    countUriTbl (insertBulkFn (⟨[exRow1], []⟩ : DB) [exInsert3]).1 exLikeUri2 = 1 := by
  constructor
  · exact ((C5_insertBulk_idempotent_per_uri exDB [exInsert1] exLikeUri1).1
      (by decide)).1
  · have h := ((C5_insertBulk_idempotent_per_uri
      (⟨[exRow1], []⟩ : DB) [exInsert3] exLikeUri2).2.1 (by decide)).1
    rw [h]
    decide

/-- Counterexample to claim C5 as stated: the batch holds two records
with the same fresh uri and different cids. The uri of the second
record is absent from the starting table, yet the second record is
not inserted and no row of it appears in the result — only the first
record yields a row. -/
theorem C5_counterexample_duplicate_uris_in_batch :
    countUriTbl (⟨[], []⟩ : DB).likeTable exInsert2.uri = 0 ∧
    (insertBulkFn ⟨[], []⟩ [exInsert1, exInsert2]).1 = [mkUnnestRow exInsert1] ∧
    (insertBulkFn ⟨[], []⟩ [exInsert1, exInsert2]).2.likeTable =
      [mkUnnestRow exInsert1] ∧
    ¬ mkUnnestRow exInsert2 ∈ [mkUnnestRow exInsert1] := by
  refine ⟨rfl, rfl, rfl, ?_⟩
  decide

/-- Claim C2: for every database state and indexed like row,
updateAggregates writes the post_agg row of the subject of the like
with likeCount equal to the full count of like rows with that subject
at call time, inserting the row when absent and overwriting it when
present; the like table and the aggregate rows of other subjects are
untouched. -/
theorem C2_updateAggregates_authoritative_recount (db : DB) (like : IndexedLike) :
    (updateAggregates db like).likeTable = db.likeTable ∧
    lookupAgg (updateAggregates db like).postAgg like.subject =
      some (likeCountOf db.likeTable like.subject) ∧
    ∀ u, u ≠ like.subject →
      lookupAgg (updateAggregates db like).postAgg u = lookupAgg db.postAgg u := by
  refine ⟨rfl, ?_, ?_⟩
  · exact lookupAgg_upsertPostAgg_self db.postAgg like.subject
      (likeCountOf db.likeTable like.subject)
  · intro u hu
    exact lookupAgg_upsertPostAgg_other db.postAgg like.subject u
      (likeCountOf db.likeTable like.subject) hu

/-- Witness for C2 at a concrete state: the recount of the bob.test
post is 2, and the aggregate row of an untouched subject stays as it
was. -/
theorem C2_updateAggregates_authoritative_recount_witness :
    lookupAgg (updateAggregates exDB exRow1).postAgg exSubject = some 2 ∧
    lookupAgg (updateAggregates exDB exRow1).postAgg exSubject2 =
      lookupAgg exDB.postAgg exSubject2 := by
  obtain ⟨h1, h2, h3⟩ := C2_updateAggregates_authoritative_recount exDB exRow1
  constructor
  · rw [show exRow1.subject = exSubject from rfl] at h2
    rw [h2]
    decide
  · exact h3 exSubject2 (by decide)

/-- Claim C3: a malformed payload — missing subject, or a
self-referential record whose subject is the record itself — is
rejected by validation before any storage call: the indexing operation
surfaces a validation error and the database is unchanged, so no like
row is inserted. -/
theorem C3_malformed_payload_rejected (db : DB) (uri : AtUri) (cid : String)
    (raw : RawLikeRecord) (timestamp : Nat) :
    (raw.subject = none →
      ∃ e, indexLikeRecord db uri cid raw timestamp = (Except.error e, db)) ∧
    (∀ s, raw.subject = some s → s.uri = uri →
      ∃ e, indexLikeRecord db uri cid raw timestamp = (Except.error e, db)) := by
  constructor
  · intro h
    exact ⟨"validation error: missing subject",
      by simp [indexLikeRecord, validateLikeRecord, h]⟩
  · intro s hs hsu
    exact ⟨"validation error: self-referential subject",
      by simp [indexLikeRecord, validateLikeRecord, hs, hsu]⟩

/-- Witness for C3: a like without a subject and a self-referential
like are both rejected with the database untouched. -/
theorem C3_malformed_payload_rejected_witness :
    (∃ e, indexLikeRecord exDB exLikeUri1 "c1" ⟨none, 5⟩ 10 =
      (Except.error e, exDB)) ∧
    (∃ e, indexLikeRecord exDB exLikeUri1 "c1" ⟨some ⟨exLikeUri1, "sc"⟩, 5⟩ 10 =
      (Except.error e, exDB)) := by
  constructor
  · exact (C3_malformed_payload_rejected exDB exLikeUri1 "c1" ⟨none, 5⟩ 10).1 rfl
  · exact (C3_malformed_payload_rejected exDB exLikeUri1 "c1"
      ⟨some ⟨exLikeUri1, "sc"⟩, 5⟩ 10).2 ⟨exLikeUri1, "sc"⟩ rfl rfl

/-- Claim C6: when a like row with the given uri already exists,
insertFn returns none (not an error) and leaves the like table
unchanged; when the uri is absent it inserts exactly one row, the one
built from the arguments, and returns it. -/
theorem C6_insertFn_idempotent (db : DB) (uri : AtUri) (cid : String)
    (obj : LikeRecord) (timestamp : Nat) :
    ((∃ r ∈ db.likeTable, r.uri = uri) →
      insertFn db uri cid obj timestamp = (none, db)) ∧
    ((¬ ∃ r ∈ db.likeTable, r.uri = uri) →
      insertFn db uri cid obj timestamp =
        (some (mkInsertRow uri cid obj timestamp),
         { db with likeTable := db.likeTable ++ [mkInsertRow uri cid obj timestamp] })) := by
  constructor
  · intro h
    have hb : hasUri db.likeTable uri = true := (hasUri_eq_true_iff _ _).mpr h
    simp [insertFn, hb]
  · intro h
    have hb : hasUri db.likeTable uri = false := by
      cases hc : hasUri db.likeTable uri
      · rfl
      · exact absurd ((hasUri_eq_true_iff _ _).mp hc) h
    simp [insertFn, hb]

/-- Witness for C6: re-inserting the uri of an existing like is a
no-op returning none, and inserting into an empty table stores exactly
the one built row and returns it. -/
theorem C6_insertFn_idempotent_witness :
    insertFn exDB exLikeUri1 "c9" exRecord 10 = (none, exDB) ∧
    insertFn ⟨[], []⟩ exLikeUri1 "c1" exRecord 10 =
      (some (mkInsertRow exLikeUri1 "c1" exRecord 10),
       ⟨[mkInsertRow exLikeUri1 "c1" exRecord 10], []⟩) := by
  constructor
  · exact (C6_insertFn_idempotent exDB exLikeUri1 "c9" exRecord 10).1
      ⟨exRow1, by simp [exDB], rfl⟩
  · exact (C6_insertFn_idempotent ⟨[], []⟩ exLikeUri1 "c1" exRecord 10).2
      (by simp)

/-- Claim C7: for a record indexed with normalized creation time and
observation time, the stored sortAt is the observation time when the
creation time lies strictly after it, and the creation time when it
lies strictly before it — on both the bulk-copy row builder and the
single-insert row builder. -/
theorem C7_sortAt_is_earlier_timestamp (r : InsertRecord) :
    (normalizeDatetimeAlways r.obj.createdAt > r.timestamp →
      (mkCopyRow r).sortAt = r.timestamp ∧
      (mkInsertRow r.uri r.cid r.obj r.timestamp).sortAt = r.timestamp) ∧
    (normalizeDatetimeAlways r.obj.createdAt < r.timestamp →
      (mkCopyRow r).sortAt = normalizeDatetimeAlways r.obj.createdAt ∧
      (mkInsertRow r.uri r.cid r.obj r.timestamp).sortAt =
        normalizeDatetimeAlways r.obj.createdAt) := by
  refine ⟨fun h => ⟨?_, ?_⟩, fun h => ⟨?_, ?_⟩⟩ <;>
    simp only [mkCopyRow, mkInsertRow, sortAtGenerated, Nat.min_def,
      normalizeDatetimeAlways] at h ⊢ <;>
    split <;> omega

/-- Witness for C7: a skewed future creation time 12 against
observation time 11 sorts at 11; creation time 5 against observation
time 10 sorts at 5. -/
theorem C7_sortAt_is_earlier_timestamp_witness :
    (mkCopyRow exInsert2).sortAt = 11 ∧ (mkCopyRow exInsert1).sortAt = 5 := by
  constructor
  · exact ((C7_sortAt_is_earlier_timestamp exInsert2).1 (by decide)).1
  · exact ((C7_sortAt_is_earlier_timestamp exInsert1).2 (by decide)).1

/-- Claim C8: notifsForInsert is a function of the row alone; it
returns the empty list when the creator of the row equals the host of
the subject URI, and otherwise exactly one intent addressed to the
subject host, authored by the creator of the row, carrying the uri,
cid, subject and sortAt of the row with reason like. -/
theorem C8_notifsForInsert_shape (obj : IndexedLike) :
    (obj.subject.host = obj.creator → notifsForInsert obj = []) ∧
    (obj.subject.host ≠ obj.creator →
      notifsForInsert obj =
        [{ did := obj.subject.host
           author := obj.creator
           recordUri := obj.uri
           recordCid := obj.cid
           reason := "like"
           reasonSubject := obj.subject
           sortAt := obj.sortAt }]) := by
  constructor <;> intro h <;> simp [notifsForInsert, h]

/-- Witness for C8: a self-like row produces no intent, and the
alice.test like on the bob.test post produces exactly the expected
intent. -/
theorem C8_notifsForInsert_shape_witness :
    notifsForInsert ⟨exLikeUri1, "c1", "bob.test", exSubject, "sc1", 5, 10, 5⟩ = [] ∧
    notifsForInsert exRow1 =
      [{ did := "bob.test"
         author := "alice.test"
         recordUri := exLikeUri1
         recordCid := "c1"
         reason := "like"
         reasonSubject := exSubject
         sortAt := 5 }] := by
  constructor
  · exact (C8_notifsForInsert_shape
      ⟨exLikeUri1, "c1", "bob.test", exSubject, "sc1", 5, 10, 5⟩).1 rfl
  · exact (C8_notifsForInsert_shape exRow1).2 (by decide)

/-- Claim C9: notifsForDelete retracts nothing when the delete is a
supersession (replacedBy present) and retracts exactly the deleted
row URI when replacedBy is absent. -/
theorem C9_notifsForDelete_retractions (deleted replacement : IndexedLike) :
    (notifsForDelete deleted (some replacement)).toDelete = [] ∧
    (notifsForDelete deleted none).toDelete = [deleted.uri] :=
  ⟨rfl, rfl⟩

/-- Claim C10: notifsForDelete never emits fresh notification intents,
whatever the replacedBy argument is. -/
theorem C10_notifsForDelete_no_new_intents (deleted : IndexedLike)
    (replacedBy : Option IndexedLike) :
    (notifsForDelete deleted replacedBy).notifs = [] := rfl

end LikePlugin
